import Mathlib

/-!
Shallow embedding of the Shortform-Signals analysis core
(`src/analysis.py`, class `ShortformAnalyzer`, plus the derived-metric
formulas repeated in `src/data_loader.py`).

Modelling conventions, fixed once for the whole development:

* A pandas float cell is modelled by `PFloat`: an exact rational, `nan`,
  or a signed infinity.  Raw CSV counters (`views`, `likes`, ...) are
  modelled as exact rationals; the derived ratio columns carry the
  IEEE-754 special values that pandas float division produces
  (`x / 0` is `nan` for `x = 0` and a signed infinity otherwise).
* pandas defaults assumed throughout (pandas 1.x / 2.x, the era of the
  source): `groupby(..., dropna=True)` drops rows whose key is null;
  `groupby` over a categorical key (the `pd.cut` result) uses
  `observed=False`, i.e. produces one group per category label whether
  or not the label occurs; `mean`/`std` skip `nan` cells; `nlargest`
  drops `nan` cells and is a stable descending selection.
* pandas' stable sorts are modelled by `List.insertionSort`, which is
  extensionally the unique stable sort for a total preorder.
* `DataFrame.round` uses numpy's round-half-to-even, modelled exactly on
  rationals.
* In-place column assignments (`self.merged[...] = ...`) are modelled by
  explicit state passing: each analyzer method becomes a function
  returning the (possibly updated) analyzer together with its result.
-/

/-- Model of a pandas float cell: an exact rational value, `nan`
(undefined / missing), or a signed infinity. -/
inductive PFloat where
  | val (q : ℚ)
  | nan
  | inf
  | neginf
deriving DecidableEq

/-- Whether the cell is the undefined marker (pandas `NaN`). -/
def PFloat.isNaN : PFloat → Bool
  | .nan => true
  | _ => false

/-- Whether the cell holds a finite value. -/
def PFloat.isFinite : PFloat → Bool
  | .val _ => true
  | _ => false

/-- The rational value of a finite cell (0 otherwise). -/
def PFloat.toQ : PFloat → ℚ
  | .val q => q
  | _ => 0

/-- Total Boolean comparison on cells, ordering `nan` below everything,
then `-inf`, then the finite values, then `+inf`.  It is only consulted
on `nan`-free data (pandas drops `nan` before sorting); the `nan` clauses
just make the order total. -/
def PFloat.leB : PFloat → PFloat → Bool
  | .nan, _ => true
  | .val _, .nan => false
  | .inf, .nan => false
  | .neginf, .nan => false
  | .neginf, _ => true
  | .val _, .neginf => false
  | .inf, .neginf => false
  | .val a, .val b => decide (a ≤ b)
  | .val _, .inf => true
  | .inf, .val _ => false
  | .inf, .inf => true

/-- Float division of two exact rationals, with the IEEE-754 zero-divisor
behaviour of pandas/NumPy: `0/0 = nan`, `x/0 = ±inf` for `x ≠ 0`. -/
def pdivQ (a b : ℚ) : PFloat :=
  if b = 0 then
    if a = 0 then .nan else if 0 < a then .inf else .neginf
  else .val (a / b)

/-- Multiplication of a cell by a positive rational constant (used for the
`* 100` in the engagement-rate formula). -/
def PFloat.scalePos (c : ℚ) : PFloat → PFloat
  | .val q => .val (c * q)
  | .nan => .nan
  | .inf => .inf
  | .neginf => .neginf

/-- Floor of a rational, computed by floor division of numerator by
denominator. -/
def qfloor (q : ℚ) : ℤ :=
  Int.fdiv q.num q.den

/-- Round a rational to the nearest integer, ties to even (numpy/pandas
rounding). -/
def roundHalfEven (q : ℚ) : ℤ :=
  let f := qfloor q
  let r := q - (f : ℚ)
  if r < 1/2 then f
  else if 1/2 < r then f + 1
  else if f % 2 = 0 then f else f + 1

/-- Round a rational to `d` decimal places, ties to even. -/
def roundQ (d : ℕ) (q : ℚ) : ℚ :=
  (roundHalfEven (q * 10 ^ d) : ℚ) / 10 ^ d

/-- `DataFrame.round(d)` on one cell: finite values are rounded, `nan` and
the infinities pass through. -/
def PFloat.roundTo (d : ℕ) : PFloat → PFloat
  | .val q => .val (roundQ d q)
  | x => x

/-- Column mean with pandas `skipna=True` semantics: `nan` cells are
dropped; an empty (or all-`nan`) column has mean `nan`; an infinity makes
the sum, hence the mean, infinite (opposite infinities give `nan`). -/
def pmean (xs : List PFloat) : PFloat :=
  let ys := xs.filter (fun x => ¬ x.isNaN)
  if ys.isEmpty then .nan
  else if ys.any (fun x => x = PFloat.inf) ∧ ys.any (fun x => x = PFloat.neginf) then .nan
  else if ys.any (fun x => x = PFloat.inf) then .inf
  else if ys.any (fun x => x = PFloat.neginf) then .neginf
  else .val ((ys.map PFloat.toQ).sum / (ys.length : ℚ))

/-- Squared sample standard deviation (`ddof = 1`) with pandas semantics:
`nan` dropped, `nan` for fewer than two defined values or any infinite
value.  pandas reports the square root of this quantity; the root of a
rational is irrational in general, so the squared value is the exact
carrier here — no claim in this development depends on the magnitude of a
standard deviation, only on which cells are defined. -/
def pvarSample (xs : List PFloat) : PFloat :=
  let ys := xs.filter (fun x => ¬ x.isNaN)
  if ys.length ≤ 1 then .nan
  else if ys.any (fun x => ¬ x.isFinite) then .nan
  else
    let qs := ys.map PFloat.toQ
    let m := qs.sum / (qs.length : ℚ)
    .val ((qs.map (fun q => (q - m) ^ 2)).sum / ((qs.length : ℚ) - 1))

/-- One row of `shortform_videos.csv` as consumed by the analyzer.
`retention_rate?` is `some` when the optional `retention_rate` column is
present for this table. -/
structure VideoRow where
  video_id : String
  creator_id : String
  format_type : String
  duration_sec : ℚ
  views : ℚ
  likes : ℚ
  comments : ℚ
  shares : ℚ
  watch_time : ℚ
  full_views : ℚ
  hook_watch_rate : ℚ
  retention_rate? : Option ℚ
deriving DecidableEq

/-- One row of `shortform_creators.csv`. -/
structure CreatorRow where
  creator_id : String
  creator_name : String
  niche : String
  followers : ℚ
deriving DecidableEq

/-- One row of the merged analysis table built by
`ShortformAnalyzer._prepare_data`: the video fields, the (nullable)
creator fields brought in by the left join, the derived ratio columns,
and the two columns that later methods add in place (`duration_bin` from
`duration_analysis`, `cluster` from `performance_clustering`); `none`
models "column absent". -/
structure MergedRow where
  video_id : String
  creator_id : String
  format_type : String
  duration_sec : ℚ
  views : ℚ
  likes : ℚ
  comments : ℚ
  shares : ℚ
  watch_time : ℚ
  full_views : ℚ
  hook_watch_rate : ℚ
  creator_name : Option String
  niche : Option String
  followers : Option ℚ
  engagement_rate : PFloat
  avg_watch_time_per_view : PFloat
  like_to_view_ratio : PFloat
  share_to_view_ratio : PFloat
  retention_rate : PFloat
  duration_bin : Option (Option String)
  cluster : Option ℕ
deriving DecidableEq

/-- Build one merged row from a video row and its (optional) joined
creator row, computing the derived metrics of `_prepare_data`
(the same formulas appear in
`ShortformDataLoader.calculate_derived_metrics`):
`engagement_rate = (likes+comments+shares)/views*100`,
`avg_watch_time_per_view = watch_time/views`,
`like_to_view_ratio = likes/views`,
`share_to_view_ratio = shares/views`, and
`retention_rate = full_views/views` when the input column is absent. -/
def mkMergedRow (v : VideoRow) (c : Option CreatorRow) : MergedRow :=
  { video_id := v.video_id
    creator_id := v.creator_id
    format_type := v.format_type
    duration_sec := v.duration_sec
    views := v.views
    likes := v.likes
    comments := v.comments
    shares := v.shares
    watch_time := v.watch_time
    full_views := v.full_views
    hook_watch_rate := v.hook_watch_rate
    creator_name := c.map (fun x => x.creator_name)
    niche := c.map (fun x => x.niche)
    followers := c.map (fun x => x.followers)
    engagement_rate := (pdivQ (v.likes + v.comments + v.shares) v.views).scalePos 100
    avg_watch_time_per_view := pdivQ v.watch_time v.views
    like_to_view_ratio := pdivQ v.likes v.views
    share_to_view_ratio := pdivQ v.shares v.views
    retention_rate :=
      match v.retention_rate? with
      | some r => .val r
      | none => pdivQ v.full_views v.views
    duration_bin := none
    cluster := none }

/-- The left merge of `_prepare_data`: every video row is kept; a video
with no matching creator gets null creator fields; a (data-quality)
duplicate `creator_id` in the creators table duplicates the video row,
exactly as `pd.merge(..., how='left')` does. -/
def prepare_data (videos : List VideoRow) (creators : List CreatorRow) : List MergedRow :=
  videos.flatMap (fun v =>
    match creators.filter (fun c => c.creator_id = v.creator_id) with
    | [] => [mkMergedRow v none]
    | cs => cs.map (fun c => mkMergedRow v (some c)))

/-- The analyzer state: the three input tables and the merged analysis
table built on construction (`platforms` is stored but never joined). -/
structure ShortformAnalyzer where
  videos : List VideoRow
  creators : List CreatorRow
  merged : List MergedRow
deriving DecidableEq

/-- `ShortformAnalyzer.__init__`: store the inputs and run
`_prepare_data`. -/
def mkAnalyzer (videos : List VideoRow) (creators : List CreatorRow) : ShortformAnalyzer :=
  { videos := videos, creators := creators, merged := prepare_data videos creators }

/-- Boolean linear order on strings (the order pandas uses to sort group
keys). -/
def leString (a b : String) : Bool :=
  decide (a ≤ b)

/-- Lexicographic Boolean order on string pairs (composite group keys). -/
def leStringPair (a b : String × String) : Bool :=
  if a.1 = b.1 then decide (a.2 ≤ b.2) else decide (a.1 ≤ b.1)

/-- Boolean order on naturals (cluster-id group keys). -/
def leNat (a b : ℕ) : Bool :=
  decide (a ≤ b)

/-- pandas `groupby` with the source's default arguments: rows whose key
is null are dropped (`dropna=True`), groups are formed over the distinct
observed key values, and the groups are emitted in sorted key order
(`sort=True`).  Each group carries the rows having that key. -/
def groupbyKey {K : Type} [DecidableEq K] (le : K → K → Bool)
    (key : MergedRow → Option K) (rows : List MergedRow) : List (K × List MergedRow) :=
  (((rows.filterMap key).dedup).insertionSort (fun a b => le a b = true)).map
    (fun k => (k, rows.filter (fun r => key r = some k)))

/-- One output row of `format_performance_analysis`: mean and (squared)
sample standard deviation of the seven aggregated metrics, rounded to two
decimals.  See `pvarSample` for why the standard deviation is carried
squared. -/
structure FormatStats where
  views_mean : PFloat
  views_std : PFloat
  likes_mean : PFloat
  likes_std : PFloat
  comments_mean : PFloat
  comments_std : PFloat
  shares_mean : PFloat
  shares_std : PFloat
  retention_rate_mean : PFloat
  retention_rate_std : PFloat
  engagement_rate_mean : PFloat
  engagement_rate_std : PFloat
  hook_watch_rate_mean : PFloat
  hook_watch_rate_std : PFloat
deriving DecidableEq

/-- `ShortformAnalyzer.format_performance_analysis`: group the merged
table by `format_type` and aggregate mean/std of the seven metrics,
rounded to 2 decimals. -/
def format_performance_analysis (a : ShortformAnalyzer) : List (String × FormatStats) :=
  (groupbyKey leString (fun r => some r.format_type) a.merged).map (fun p =>
    (p.1,
      { views_mean := (pmean (p.2.map (fun r => PFloat.val r.views))).roundTo 2
        views_std := (pvarSample (p.2.map (fun r => PFloat.val r.views))).roundTo 2
        likes_mean := (pmean (p.2.map (fun r => PFloat.val r.likes))).roundTo 2
        likes_std := (pvarSample (p.2.map (fun r => PFloat.val r.likes))).roundTo 2
        comments_mean := (pmean (p.2.map (fun r => PFloat.val r.comments))).roundTo 2
        comments_std := (pvarSample (p.2.map (fun r => PFloat.val r.comments))).roundTo 2
        shares_mean := (pmean (p.2.map (fun r => PFloat.val r.shares))).roundTo 2
        shares_std := (pvarSample (p.2.map (fun r => PFloat.val r.shares))).roundTo 2
        retention_rate_mean := (pmean (p.2.map (fun r => r.retention_rate))).roundTo 2
        retention_rate_std := (pvarSample (p.2.map (fun r => r.retention_rate))).roundTo 2
        engagement_rate_mean := (pmean (p.2.map (fun r => r.engagement_rate))).roundTo 2
        engagement_rate_std := (pvarSample (p.2.map (fun r => r.engagement_rate))).roundTo 2
        hook_watch_rate_mean := (pmean (p.2.map (fun r => PFloat.val r.hook_watch_rate))).roundTo 2
        hook_watch_rate_std := (pvarSample (p.2.map (fun r => PFloat.val r.hook_watch_rate))).roundTo 2 }))

/-- One output row of `niche_analysis` (column names already flattened as
in the source): means rounded to 3 decimals plus the non-null count of
`views`. -/
structure NicheStats where
  views_mean : PFloat
  views_count : ℕ
  likes_mean : PFloat
  shares_mean : PFloat
  retention_rate_mean : PFloat
  engagement_rate_mean : PFloat
  hook_watch_rate_mean : PFloat
deriving DecidableEq

/-- `ShortformAnalyzer.niche_analysis`: group by the (nullable) `niche`
column and aggregate. -/
def niche_analysis (a : ShortformAnalyzer) : List (String × NicheStats) :=
  (groupbyKey leString (fun r => r.niche) a.merged).map (fun p =>
    (p.1,
      { views_mean := (pmean (p.2.map (fun r => PFloat.val r.views))).roundTo 3
        views_count := ((p.2.map (fun r => PFloat.val r.views)).filter (fun x => ¬ x.isNaN)).length
        likes_mean := (pmean (p.2.map (fun r => PFloat.val r.likes))).roundTo 3
        shares_mean := (pmean (p.2.map (fun r => PFloat.val r.shares))).roundTo 3
        retention_rate_mean := (pmean (p.2.map (fun r => r.retention_rate))).roundTo 3
        engagement_rate_mean := (pmean (p.2.map (fun r => r.engagement_rate))).roundTo 3
        hook_watch_rate_mean := (pmean (p.2.map (fun r => PFloat.val r.hook_watch_rate))).roundTo 3 }))

/-- The ordered label set passed to `pd.cut` in `duration_analysis`. -/
def durationLabels : List String :=
  ["0-15s", "15-30s", "30-45s", "45-60s", "60s+"]

/-- `pd.cut(duration_sec, bins=[0,15,30,45,60,100], labels=...)` on one
value: half-open intervals, right edge included (`right=True`), left edge
of the first bin excluded (`include_lowest=False`); values outside
`(0, 100]` get a null bucket. -/
def durationBin (d : ℚ) : Option String :=
  if 0 < d ∧ d ≤ 15 then some ("0-15s")
  else if 15 < d ∧ d ≤ 30 then some ("15-30s")
  else if 30 < d ∧ d ≤ 45 then some ("30-45s")
  else if 45 < d ∧ d ≤ 60 then some ("45-60s")
  else if 60 < d ∧ d ≤ 100 then some ("60s+")
  else none

/-- The in-place column assignment
`self.merged['duration_bin'] = pd.cut(...)`. -/
def setDurationBins (rows : List MergedRow) : List MergedRow :=
  rows.map (fun r => { r with duration_bin := some (durationBin r.duration_sec) })

/-- `groupby('duration_bin')` over the binned table.  The key column is
categorical (the result of `pd.cut`), so with the source's default
`observed=False` one group is emitted per category label — all five
labels, observed or not, in category order — while rows with a null
bucket are dropped (`dropna=True`). -/
def durationGroups (rows : List MergedRow) : List (String × List MergedRow) :=
  durationLabels.map (fun l =>
    (l, (setDurationBins rows).filter (fun r => r.duration_bin = some (some l))))

/-- One output row of `duration_analysis`: means rounded to 3 decimals. -/
structure DurationStats where
  views_mean : PFloat
  retention_rate_mean : PFloat
  engagement_rate_mean : PFloat
  hook_watch_rate_mean : PFloat
deriving DecidableEq

/-- `ShortformAnalyzer.duration_analysis` as a state transformer: assigns
the `duration_bin` column on the shared merged table in place, then
aggregates by bucket. -/
def duration_analysis (a : ShortformAnalyzer) :
    ShortformAnalyzer × List (String × DurationStats) :=
  ({ a with merged := setDurationBins a.merged },
    (durationGroups a.merged).map (fun p =>
      (p.1,
        { views_mean := (pmean (p.2.map (fun r => PFloat.val r.views))).roundTo 3
          retention_rate_mean := (pmean (p.2.map (fun r => r.retention_rate))).roundTo 3
          engagement_rate_mean := (pmean (p.2.map (fun r => r.engagement_rate))).roundTo 3
          hook_watch_rate_mean := (pmean (p.2.map (fun r => PFloat.val r.hook_watch_rate))).roundTo 3 })))

/-- The fixed numeric metric set of `correlation_analysis`. -/
inductive Metric where
  | views
  | likes
  | comments
  | shares
  | watch_time
  | full_views
  | retention_rate
  | hook_watch_rate
  | engagement_rate
  | avg_watch_time_per_view
  | like_to_view_ratio
  | share_to_view_ratio
deriving DecidableEq

/-- The column of a metric in one merged row (raw counters are finite by
construction, derived ratios may be `nan` or infinite). -/
def metricVal (m : Metric) (r : MergedRow) : PFloat :=
  match m with
  | .views => .val r.views
  | .likes => .val r.likes
  | .comments => .val r.comments
  | .shares => .val r.shares
  | .watch_time => .val r.watch_time
  | .full_views => .val r.full_views
  | .retention_rate => r.retention_rate
  | .hook_watch_rate => .val r.hook_watch_rate
  | .engagement_rate => r.engagement_rate
  | .avg_watch_time_per_view => r.avg_watch_time_per_view
  | .like_to_view_ratio => r.like_to_view_ratio
  | .share_to_view_ratio => r.share_to_view_ratio

/-- Column name of a metric (for the insight strings). -/
def metricName (m : Metric) : String :=
  match m with
  | .views => ("views")
  | .likes => ("likes")
  | .comments => ("comments")
  | .shares => ("shares")
  | .watch_time => ("watch_time")
  | .full_views => ("full_views")
  | .retention_rate => ("retention_rate")
  | .hook_watch_rate => ("hook_watch_rate")
  | .engagement_rate => ("engagement_rate")
  | .avg_watch_time_per_view => ("avg_watch_time_per_view")
  | .like_to_view_ratio => ("like_to_view_ratio")
  | .share_to_view_ratio => ("share_to_view_ratio")

/-- The metric list in source column order. -/
def Metric.all : List Metric :=
  [.views, .likes, .comments, .shares, .watch_time, .full_views,
   .retention_rate, .hook_watch_rate, .engagement_rate,
   .avg_watch_time_per_view, .like_to_view_ratio, .share_to_view_ratio]

/-- Pairwise-complete observations for a metric pair: the rows where both
cells are non-`nan` (pandas `corr` masks missing cells pairwise). -/
def corrSamples (rows : List MergedRow) (i j : Metric) : List (PFloat × PFloat) :=
  rows.filterMap (fun r =>
    if ¬ (metricVal i r).isNaN ∧ ¬ (metricVal j r).isNaN then
      some (metricVal i r, metricVal j r)
    else none)

/-- Whether a pairwise sample set contains an infinite cell (in which
case the float accumulations of `corr` are not finite and the entry is
undefined). -/
def corrHasNonfinite (rows : List MergedRow) (i j : Metric) : Bool :=
  (corrSamples rows i j).any (fun p => ¬ p.1.isFinite || ¬ p.2.isFinite)

/-- The pairwise samples as exact rationals. -/
def corrQ (rows : List MergedRow) (i j : Metric) : List (ℚ × ℚ) :=
  (corrSamples rows i j).map (fun p => (p.1.toQ, p.2.toQ))

/-- Centred cross-product sum `Σ (x - x̄)(y - ȳ)` of a list of pairs. -/
def sDot (ps : List (ℚ × ℚ)) : ℚ :=
  let n : ℚ := (ps.length : ℚ)
  let mx := (ps.map Prod.fst).sum / n
  let my := (ps.map Prod.snd).sum / n
  (ps.map (fun p => (p.1 - mx) * (p.2 - my))).sum

/-- Centred cross sum of the pairwise samples of metrics `i`, `j`. -/
def corrSxy (rows : List MergedRow) (i j : Metric) : ℚ :=
  sDot (corrQ rows i j)

/-- Centred square sum of the first coordinate of the pairwise samples
(the variance numerator of metric `i` over the pairwise-complete rows). -/
def corrSxx (rows : List MergedRow) (i j : Metric) : ℚ :=
  sDot ((corrQ rows i j).map (fun p => (p.1, p.1)))

/-- Centred square sum of the second coordinate of the pairwise samples. -/
def corrSyy (rows : List MergedRow) (i j : Metric) : ℚ :=
  sDot ((corrQ rows i j).map (fun p => (p.2, p.2)))

/-- One entry of the Pearson correlation matrix of
`ShortformAnalyzer.correlation_analysis`.  The Pearson coefficient is
`r = Sxy / (√Sxx · √Syy)`, irrational in general; the entry is therefore
carried as the signed square `sign(r) · r² = Sxy·|Sxy| / (Sxx·Syy)`, the
image of `r` under a strictly monotone bijection of `[-1, 1]`.  This
preserves exactly the properties at issue: symmetry, the entry being `1`
(i.e. `r = 1`), and the entry being the undefined marker — pandas yields
`NaN` when either variance term is zero (constant column, fewer than two
pairwise observations) or when a cell is infinite. -/
def corrEntry (rows : List MergedRow) (i j : Metric) : PFloat :=
  if corrHasNonfinite rows i j then .nan
  else
    let sxy := corrSxy rows i j
    let sxx := corrSxx rows i j
    let syy := corrSyy rows i j
    if sxx * syy = 0 then .nan
    else .val (sxy * |sxy| / (sxx * syy))

/-- `ShortformAnalyzer.correlation_analysis`: the full matrix over the
fixed metric set, as an entry function. -/
def correlation_analysis (a : ShortformAnalyzer) : Metric → Metric → PFloat :=
  fun i j => corrEntry a.merged i j

/-- The matrix flattened the way `corr_matrix.unstack()` flattens it for
the insights report: all 144 entries keyed by the metric pair. -/
def corrUnstacked (a : ShortformAnalyzer) : List ((Metric × Metric) × PFloat) :=
  Metric.all.flatMap (fun i => Metric.all.map (fun j => ((i, j), correlation_analysis a i j)))

/-- The error values surfaced by the analyzer calls that can fail:
a plain `ValueError` and scikit-learn's `InvalidParameterError`, which
names the offending constructor parameter. -/
inductive PyError where
  | valueError (msg : String)
  | invalidParameter (param : String)
deriving DecidableEq

/-- `Series.idxmax` (default `skipna=True`): error on an empty column;
on an all-`nan` column pandas (1.x/2.x, warnings suppressed) returns the
`nan` key, modelled as `none`; otherwise the key of the first occurrence
of the maximum. -/
def idxmax {K : Type} (pairs : List (K × PFloat)) : Except PyError (Option K) :=
  match pairs with
  | [] => .error (.valueError ("attempt to get argmax of an empty sequence"))
  | _ =>
    match pairs.filter (fun p => ¬ p.2.isNaN) with
    | [] => .ok none
    | q :: rest => .ok (some (rest.foldl (fun b p => if p.2.leB b.2 then b else p) q).1)

/-- One entry of a pandas row index: an integer position (`RangeIndex`)
or a group label. -/
inductive PIdx where
  | pos (i : ℕ)
  | label (s : String)
deriving DecidableEq

/-- Whether an index entry is an integer position. -/
def PIdx.isPos : PIdx → Bool
  | .pos _ => true
  | .label _ => false

/-- Descending comparison with `nan` last — the order of
`sort_values(..., ascending=False)` (default `na_position='last'`). -/
def descNanLast (x y : PFloat) : Bool :=
  if x.isNaN then y.isNaN
  else if y.isNaN then true
  else y.leB x

/-- The composite `['creator_name', 'niche']` group key; null in either
component makes `groupby` drop the row. -/
def keyCreatorNiche (r : MergedRow) : Option (String × String) :=
  match r.creator_name, r.niche with
  | some c, some n => some (c, n)
  | _, _ => none

/-- One row of the `creator_performance_ranking` result, after the
follower merge: `idx` is the row's pandas index entry, the group keys
survive as columns, the six aggregated means are rounded to 3 decimals,
and `followers` is null for a creator name absent from the creators
table. -/
structure CreatorStatsRow where
  idx : PIdx
  creator_name : String
  niche : String
  views_mean : PFloat
  likes_mean : PFloat
  shares_mean : PFloat
  retention_rate_mean : PFloat
  engagement_rate_mean : PFloat
  hook_watch_rate_mean : PFloat
  followers : Option ℚ
deriving DecidableEq

/-- The aggregation step of `creator_performance_ranking`: means by
`(creator_name, niche)`, rounded to 3 decimals. -/
def creatorGroupStats (a : ShortformAnalyzer) :
    List ((String × String) × (PFloat × PFloat × PFloat × PFloat × PFloat × PFloat)) :=
  (groupbyKey leStringPair keyCreatorNiche a.merged).map (fun p =>
    (p.1,
      ((pmean (p.2.map (fun r => PFloat.val r.views))).roundTo 3,
       (pmean (p.2.map (fun r => PFloat.val r.likes))).roundTo 3,
       (pmean (p.2.map (fun r => PFloat.val r.shares))).roundTo 3,
       (pmean (p.2.map (fun r => r.retention_rate))).roundTo 3,
       (pmean (p.2.map (fun r => r.engagement_rate))).roundTo 3,
       (pmean (p.2.map (fun r => PFloat.val r.hook_watch_rate))).roundTo 3)))

/-- `ShortformAnalyzer.creator_performance_ranking`: aggregate by
`(creator_name, niche)`, left-merge the follower counts on
`creator_name`, sort by mean retention rate descending and keep the top
`top_n` rows.  The merge joins an index level of the grouped frame to a
column of the creators frame; pandas then re-indexes the result with a
fresh integer `RangeIndex` — the grouping index is discarded, so every
row of the result carries an integer index entry (`PIdx.pos`), which the
final sort permutes but does not relabel. -/
def creator_performance_ranking (a : ShortformAnalyzer) (top_n : ℕ) : List CreatorStatsRow :=
  let stats := creatorGroupStats a
  let withFollowers := stats.flatMap (fun p =>
    match a.creators.filter (fun c => c.creator_name = p.1.1) with
    | [] => [(p.1, p.2, (none : Option ℚ))]
    | cs => cs.map (fun c => (p.1, p.2, some c.followers)))
  let withIdx := withFollowers.enum.map (fun q =>
    { idx := PIdx.pos q.1
      creator_name := q.2.1.1
      niche := q.2.1.2
      views_mean := q.2.2.1.1
      likes_mean := q.2.2.1.2.1
      shares_mean := q.2.2.1.2.2.1
      retention_rate_mean := q.2.2.1.2.2.2.1
      engagement_rate_mean := q.2.2.1.2.2.2.2.1
      hook_watch_rate_mean := q.2.2.1.2.2.2.2.2
      followers := q.2.2.2 : CreatorStatsRow })
  (withIdx.insertionSort
    (fun x y => descNanLast x.retention_rate_mean y.retention_rate_mean = true)).take top_n

/-- The column projection of `top_performers_analysis`. -/
structure TopVideoRow where
  video_id : String
  creator_name : Option String
  format_type : String
  duration_sec : ℚ
  views : ℚ
  likes : ℚ
  shares : ℚ
  retention_rate : PFloat
  engagement_rate : PFloat
  hook_watch_rate : ℚ
  niche : Option String
deriving DecidableEq

/-- Restrict one merged row to the projection columns. -/
def projTop (r : MergedRow) : TopVideoRow :=
  { video_id := r.video_id
    creator_name := r.creator_name
    format_type := r.format_type
    duration_sec := r.duration_sec
    views := r.views
    likes := r.likes
    shares := r.shares
    retention_rate := r.retention_rate
    engagement_rate := r.engagement_rate
    hook_watch_rate := r.hook_watch_rate
    niche := r.niche }

/-- The rows of the merged table whose `m` cell is defined
(`DataFrame.nlargest` drops `nan` cells before selecting). -/
def definedRows (rows : List MergedRow) (m : Metric) : List MergedRow :=
  rows.filter (fun r => ¬ (metricVal m r).isNaN)

/-- The before-or-equal relation of the stable descending sort underlying
`nlargest(m, n)`. -/
def nlargestRel (m : Metric) : MergedRow → MergedRow → Prop :=
  fun x y => PFloat.leB (metricVal m y) (metricVal m x) = true

instance nlargestRelDecidable (m : Metric) : DecidableRel (nlargestRel m) :=
  fun x y => inferInstanceAs (Decidable (PFloat.leB (metricVal m y) (metricVal m x) = true))

/-- `self.merged.nlargest(top_n, metric)`: drop the rows with an
undefined metric cell, stable-sort descending by the metric, take the
first `top_n` (all of them when fewer remain). -/
def top_performers_rows (a : ShortformAnalyzer) (m : Metric) (top_n : ℕ) : List MergedRow :=
  ((definedRows a.merged m).insertionSort (nlargestRel m)).take top_n

/-- `ShortformAnalyzer.top_performers_analysis`: the `nlargest` selection
projected to the fixed column list of the call site. -/
def top_performers_analysis (a : ShortformAnalyzer) (m : Metric) (top_n : ℕ) : List TopVideoRow :=
  (top_performers_rows a m top_n).map projTop

/-- The clustering feature vector of one merged row
(`['views', 'likes', 'shares', 'retention_rate', 'engagement_rate']`). -/
def featureVec (r : MergedRow) : List PFloat :=
  [.val r.views, .val r.likes, .val r.shares, r.retention_rate, r.engagement_rate]

/-- The feature matrix handed to the scaler. -/
def featureRows (rows : List MergedRow) : List (List PFloat) :=
  rows.map featureVec

/-- Values of column `j` of an exact feature matrix. -/
def colVals (m : List (List ℚ)) (j : ℕ) : List ℚ :=
  m.map (fun row => row.getD j 0)

/-- Population variance (`ddof = 0`, as `StandardScaler` uses) of a
column. -/
def colVarPop (m : List (List ℚ)) (j : ℕ) : ℚ :=
  let vs := colVals m j
  let n : ℚ := (vs.length : ℚ)
  let mu := vs.sum / n
  (vs.map (fun v => (v - mu) ^ 2)).sum / n

/-- Column mean of an exact feature matrix. -/
def colMean (m : List (List ℚ)) (j : ℕ) : ℚ :=
  (colVals m j).sum / ((colVals m j).length : ℚ)

/-- Modelled from the scikit-learn contract of
`StandardScaler().fit_transform`: raises `ValueError` on an empty sample
set and on any `NaN`/infinite input cell; otherwise centres each column
and divides by its spread, with a zero-variance column left unscaled
(scikit-learn maps zero scale to 1).  scikit-learn divides by the square
root of the population variance, which is irrational in general; the
model divides by the variance itself.  The scaled magnitudes feed only
the abstracted k-means step below, so the error behaviour and the
zero-variance convention — the properties claims depend on — are
preserved exactly. -/
def standard_scaler (m : List (List PFloat)) : Except PyError (List (List ℚ)) :=
  if m.isEmpty then
    .error (.valueError ("Found array with 0 sample(s)"))
  else if m.any (fun row => row.any (fun x => ¬ x.isFinite)) then
    .error (.valueError ("Input contains NaN, infinity or a value too large"))
  else
    let q := m.map (fun row => row.map PFloat.toQ)
    .ok (q.map (fun row => row.enum.map (fun p =>
      let v := colVarPop q p.1
      (p.2 - colMean q p.1) / (if v = 0 then 1 else v))))

/-- Modelled from the scikit-learn contract of
`KMeans(n_clusters=k, random_state=42).fit_predict`: parameter validation
raises `InvalidParameterError` naming `n_clusters` unless `k` is a
positive integer, then fit raises `ValueError` (its message also names
`n_clusters`) when there are fewer samples than clusters; otherwise a
total assignment of every sample to a cluster id in `[0, k)` is returned
— also when the samples are not pairwise distinct, in which case
scikit-learn only emits a (suppressed) `ConvergenceWarning`.  The seeded
Lloyd iteration that picks the particular partition is abstracted to a
fixed total assignment; no claim here depends on which partition comes
back, only on whether one does. -/
def kmeans_fit_predict (n_clusters : ℤ) (x : List (List ℚ)) : Except PyError (List ℕ) :=
  if n_clusters < 1 then .error (.invalidParameter ("n_clusters"))
  else if (x.length : ℤ) < n_clusters then
    .error (.valueError ("n_samples should be >= n_clusters"))
  else .ok (x.enum.map (fun p => p.1 % n_clusters.toNat))

/-- One row of the per-cluster summary: unscaled feature means (rounded
to 3 decimals) and the group size (`.size()`, which counts every row). -/
structure ClusterStats where
  views_mean : PFloat
  likes_mean : PFloat
  shares_mean : PFloat
  retention_rate_mean : PFloat
  engagement_rate_mean : PFloat
  count : ℕ
deriving DecidableEq

/-- `ShortformAnalyzer.performance_clustering` as a state transformer:
scale the feature columns, run k-means, write the labels into the shared
merged table as the `cluster` column (only on success — a scaler or
k-means failure propagates before the assignment happens), and summarise
the raw features per observed cluster id. -/
def performance_clustering (a : ShortformAnalyzer) (n_clusters : ℤ) :
    ShortformAnalyzer × Except PyError (List (ℕ × ClusterStats)) :=
  match standard_scaler (featureRows a.merged) with
  | .error e => (a, .error e)
  | .ok scaled =>
    match kmeans_fit_predict n_clusters scaled with
    | .error e => (a, .error e)
    | .ok labels =>
      let newMerged := (a.merged.zip labels).map (fun p => { p.1 with cluster := some p.2 })
      ({ a with merged := newMerged },
        .ok ((groupbyKey leNat (fun r => r.cluster) newMerged).map (fun p =>
          (p.1,
            { views_mean := (pmean (p.2.map (fun r => PFloat.val r.views))).roundTo 3
              likes_mean := (pmean (p.2.map (fun r => PFloat.val r.likes))).roundTo 3
              shares_mean := (pmean (p.2.map (fun r => PFloat.val r.shares))).roundTo 3
              retention_rate_mean := (pmean (p.2.map (fun r => r.retention_rate))).roundTo 3
              engagement_rate_mean := (pmean (p.2.map (fun r => r.engagement_rate))).roundTo 3
              count := p.2.length }))))

/-- Render an `idxmax` key (pandas prints the `nan` key as `nan`). -/
def renderKey : Option String → String
  | none => ("nan")
  | some s => s

/-- Render a pandas index entry the way line 218 of the source does:
a string index entry is used as is, anything else goes through `str`. -/
def renderIdx : PIdx → String
  | .label s => s
  | .pos i => toString i

/-- Render a metric-pair key of the unstacked correlation series. -/
def renderPair (p : Metric × Metric) : String :=
  ("(" ++ metricName p.1 ++ ", " ++ metricName p.2 ++ ")")

/-- `ShortformAnalyzer.generate_insights_report` as a state transformer
(it calls `duration_analysis`, which writes the `duration_bin` column).
Extraction points in source order: best format (unguarded `idxmax`), top
creator (guarded, with a fallback sentence), most engaging niche
(unguarded `idxmax`), optimal duration (guarded by non-emptiness),
strongest correlation (guarded by length).  An `idxmax` failure at an
unguarded point propagates out of the call, as the Python raises. -/
def generate_insights_report (a : ShortformAnalyzer) :
    ShortformAnalyzer × Except PyError (List String) :=
  match idxmax ((format_performance_analysis a).map (fun p => (p.1, p.2.retention_rate_mean))) with
  | .error e => (a, .error e)
  | .ok bestFormat =>
    let i1 := (" **Best Performing Format**: " ++ renderKey bestFormat ++
      " has the highest average retention rate")
    let i2 :=
      match creator_performance_ranking a 5 with
      | [] => (" **Top Creator**: Analysis available in detailed report")
      | e :: _ => (" **Top Creator**: " ++ renderIdx e.idx ++ " leads in retention rate")
    match idxmax ((niche_analysis a).map (fun p => (p.1, p.2.engagement_rate_mean))) with
    | .error e => (a, .error e)
    | .ok bestNiche =>
      let i3 := (" **Most Engaging Niche**: " ++ renderKey bestNiche ++
        " generates highest engagement rates")
      let da := duration_analysis a
      match
        (if da.2.isEmpty then
          .ok (" **Duration Analysis**: Available in detailed report")
        else
          match idxmax (da.2.map (fun p => (p.1, p.2.retention_rate_mean))) with
          | .error e => .error e
          | .ok od => .ok (" **Optimal Duration**: " ++ renderKey od ++ " videos perform best")
          : Except PyError String) with
      | .error e => (da.1, .error e)
      | .ok i4 =>
        let hc := (corrUnstacked a).insertionSort
          (fun x y => descNanLast x.2 y.2 = true)
        let i5 :=
          if 2 < hc.length then
            (" **Strongest Correlation**: " ++
              renderPair (hc.getD 1 ((Metric.views, Metric.views), PFloat.nan)).1 ++
              " and " ++ renderPair (hc.getD 2 ((Metric.views, Metric.views), PFloat.nan)).1)
          else (" **Correlation Analysis**: Available in detailed analysis")
        (da.1, .ok [i1, i2, i3, i4, i5])

/-- `format_performance_analysis` as a state transformer: the method
reads the shared merged table and assigns nothing, so the state is
returned unchanged. -/
def format_performance_analysis_run (a : ShortformAnalyzer) :
    ShortformAnalyzer × List (String × FormatStats) :=
  (a, format_performance_analysis a)

/-- `niche_analysis` as a state transformer (no assignment). -/
def niche_analysis_run (a : ShortformAnalyzer) :
    ShortformAnalyzer × List (String × NicheStats) :=
  (a, niche_analysis a)

/-- `correlation_analysis` as a state transformer (no assignment). -/
def correlation_analysis_run (a : ShortformAnalyzer) :
    ShortformAnalyzer × (Metric → Metric → PFloat) :=
  (a, correlation_analysis a)

/-- `creator_performance_ranking` as a state transformer (no
assignment). -/
def creator_performance_ranking_run (a : ShortformAnalyzer) (top_n : ℕ) :
    ShortformAnalyzer × List CreatorStatsRow :=
  (a, creator_performance_ranking a top_n)

/-- `top_performers_analysis` as a state transformer (no assignment). -/
def top_performers_analysis_run (a : ShortformAnalyzer) (m : Metric) (top_n : ℕ) :
    ShortformAnalyzer × List TopVideoRow :=
  (a, top_performers_analysis a m top_n)

/-- Forget the two columns that analyzer methods add in place, leaving
the row exactly as `_prepare_data` built it. -/
def stripAddedCols (r : MergedRow) : MergedRow :=
  { r with duration_bin := none, cluster := none }

/-- Sample video row builder for the concrete instances below (single
creator id, `skit` format, hook watch rate 1/2, no input
`retention_rate` column). -/
def mkVideo (vid : String) (dur vws lks cms shr wt fv : ℚ) : VideoRow :=
  { video_id := vid
    creator_id := ("c1")
    format_type := ("skit")
    duration_sec := dur
    views := vws
    likes := lks
    comments := cms
    shares := shr
    watch_time := wt
    full_views := fv
    hook_watch_rate := 1/2
    retention_rate? := none }

/-- A video with zero views but nonzero likes and watch time. -/
def exZeroViews : VideoRow := mkVideo ("v1") 20 0 5 0 0 30 0

/-- A 10-second video with ordinary counters. -/
def exTen : VideoRow := mkVideo ("v2") 10 100 10 0 0 50 80

/-- A video whose 150-second duration lies outside every bucket. -/
def exOutOfRange : VideoRow := mkVideo ("v3") 150 200 10 0 0 50 80

/-- Two videos with distinct views (and likes). -/
def exA : VideoRow := mkVideo ("v4") 10 100 10 0 0 50 80

/-- Second of the distinct pair. -/
def exB : VideoRow := mkVideo ("v5") 20 200 30 0 0 60 90

/-- Two videos with distinct views but identical likes (zero variance in
the likes column). -/
def exC1 : VideoRow := mkVideo ("v6") 10 100 10 0 0 50 80

/-- Second of the constant-likes pair. -/
def exC2 : VideoRow := mkVideo ("v7") 20 200 10 0 0 60 90

/-- A video duplicated verbatim in the clustering counterexample. -/
def exDup : VideoRow := mkVideo ("v8") 20 100 10 2 3 50 80


theorem pleB_refl (x : PFloat) : PFloat.leB x x = true := by
  cases x <;> simp [PFloat.leB]

theorem pleB_total (x y : PFloat) : (PFloat.leB x y || PFloat.leB y x) = true := by
  cases x <;> cases y <;> simp [PFloat.leB] <;> exact le_total _ _

theorem pleB_trans (x y z : PFloat) (h1 : PFloat.leB x y = true) (h2 : PFloat.leB y z = true) :
    PFloat.leB x z = true := by
  cases x <;> cases y <;> cases z <;> simp_all [PFloat.leB] <;> exact le_trans h1 h2

theorem length_insertionSort {α : Type} (r : α → α → Prop) [DecidableRel r] (l : List α) :
    (l.insertionSort r).length = l.length :=
  (List.perm_insertionSort r l).length_eq

theorem groupbyKey_length {K : Type} [DecidableEq K] (le : K → K → Bool)
    (key : MergedRow → Option K) (rows : List MergedRow) :
    (groupbyKey le key rows).length = ((rows.filterMap key).dedup).length := by
  simp [groupbyKey, length_insertionSort]

theorem mem_prepare_data {videos : List VideoRow} {creators : List CreatorRow} {r : MergedRow}
    (h : r ∈ prepare_data videos creators) :
    ∃ v ∈ videos, ∃ c : Option CreatorRow, r = mkMergedRow v c := by
  rw [prepare_data, List.mem_flatMap] at h
  obtain ⟨v, hv, hr⟩ := h
  refine ⟨v, hv, ?_⟩
  rcases hf : creators.filter (fun c => c.creator_id = v.creator_id) with _ | ⟨c, cs⟩
  · rw [hf] at hr
    simp at hr
    exact ⟨none, hr⟩
  · rw [hf] at hr
    rw [List.mem_map] at hr
    obtain ⟨c2, _, hr⟩ := hr
    exact ⟨some c2, hr.symm⟩

/-- C9: the duration bucket is assigned by the half-open intervals
(0,15], (15,30], (30,45], (45,60], (60,100]; in particular a duration of
exactly 15 falls in the "0-15s" bucket (upper bound inclusive) and
15.0001 falls in "15-30s"; durations outside (0,100] get no bucket. -/
theorem duration_bucket_half_open_intervals :
    (durationBin 15 = some ("0-15s")) ∧
    (durationBin (150001/10000) = some ("15-30s")) ∧
    (∀ d : ℚ,
      (durationBin d = some ("0-15s") ↔ 0 < d ∧ d ≤ 15) ∧
      (durationBin d = some ("15-30s") ↔ 15 < d ∧ d ≤ 30) ∧
      (durationBin d = some ("30-45s") ↔ 30 < d ∧ d ≤ 45) ∧
      (durationBin d = some ("45-60s") ↔ 45 < d ∧ d ≤ 60) ∧
      (durationBin d = some ("60s+") ↔ 60 < d ∧ d ≤ 100) ∧
      (durationBin d = none ↔ d ≤ 0 ∨ 100 < d)) := by
  refine ⟨by norm_num [durationBin], by norm_num [durationBin], fun d => ?_⟩
  unfold durationBin
  split_ifs with h1 h2 h3 h4 h5
  · obtain ⟨a, b⟩ := h1
    refine ⟨iff_of_true rfl ⟨a, b⟩, iff_of_false (by simp) ?_, iff_of_false (by simp) ?_,
            iff_of_false (by simp) ?_, iff_of_false (by simp) ?_, iff_of_false (by simp) ?_⟩
    · rintro ⟨hc, hd⟩ ; linarith
    · rintro ⟨hc, hd⟩ ; linarith
    · rintro ⟨hc, hd⟩ ; linarith
    · rintro ⟨hc, hd⟩ ; linarith
    · rintro (hc | hc) <;> linarith
  · obtain ⟨a, b⟩ := h2
    refine ⟨iff_of_false (by simp) ?_, iff_of_true rfl ⟨a, b⟩, iff_of_false (by simp) ?_,
            iff_of_false (by simp) ?_, iff_of_false (by simp) ?_, iff_of_false (by simp) ?_⟩
    · rintro ⟨hc, hd⟩ ; linarith
    · rintro ⟨hc, hd⟩ ; linarith
    · rintro ⟨hc, hd⟩ ; linarith
    · rintro ⟨hc, hd⟩ ; linarith
    · rintro (hc | hc) <;> linarith
  · obtain ⟨a, b⟩ := h3
    refine ⟨iff_of_false (by simp) ?_, iff_of_false (by simp) ?_, iff_of_true rfl ⟨a, b⟩,
            iff_of_false (by simp) ?_, iff_of_false (by simp) ?_, iff_of_false (by simp) ?_⟩
    · rintro ⟨hc, hd⟩ ; linarith
    · rintro ⟨hc, hd⟩ ; linarith
    · rintro ⟨hc, hd⟩ ; linarith
    · rintro ⟨hc, hd⟩ ; linarith
    · rintro (hc | hc) <;> linarith
  · obtain ⟨a, b⟩ := h4
    refine ⟨iff_of_false (by simp) ?_, iff_of_false (by simp) ?_, iff_of_false (by simp) ?_,
            iff_of_true rfl ⟨a, b⟩, iff_of_false (by simp) ?_, iff_of_false (by simp) ?_⟩
    · rintro ⟨hc, hd⟩ ; linarith
    · rintro ⟨hc, hd⟩ ; linarith
    · rintro ⟨hc, hd⟩ ; linarith
    · rintro ⟨hc, hd⟩ ; linarith
    · rintro (hc | hc) <;> linarith
  · obtain ⟨a, b⟩ := h5
    refine ⟨iff_of_false (by simp) ?_, iff_of_false (by simp) ?_, iff_of_false (by simp) ?_,
            iff_of_false (by simp) ?_, iff_of_true rfl ⟨a, b⟩, iff_of_false (by simp) ?_⟩
    · rintro ⟨hc, hd⟩ ; linarith
    · rintro ⟨hc, hd⟩ ; linarith
    · rintro ⟨hc, hd⟩ ; linarith
    · rintro ⟨hc, hd⟩ ; linarith
    · rintro (hc | hc) <;> linarith
  · push_neg at h1 h2 h3 h4 h5
    refine ⟨iff_of_false (by simp) ?_, iff_of_false (by simp) ?_, iff_of_false (by simp) ?_,
            iff_of_false (by simp) ?_, iff_of_false (by simp) ?_, iff_of_true rfl ?_⟩
    · rintro ⟨hc, hd⟩ ; have := h1 hc ; linarith
    · rintro ⟨hc, hd⟩ ; have := h2 hc ; linarith
    · rintro ⟨hc, hd⟩ ; have := h3 hc ; linarith
    · rintro ⟨hc, hd⟩ ; have := h4 hc ; linarith
    · rintro ⟨hc, hd⟩ ; have := h5 hc ; linarith
    · rcases le_or_lt d 0 with hc | hc
      · exact Or.inl hc
      · exact Or.inr (h5 (h4 (h3 (h2 (h1 hc)))))

/-- Witness for the claim theorem of C9, evaluated at duration 7. -/
theorem duration_bucket_half_open_intervals_witness :
    durationBin 7 = some ("0-15s") :=
  (duration_bucket_half_open_intervals.2.2 7).1.mpr (by norm_num)

/-- C1 (amended): for every merged row with positive views the four
derived ratios equal the documented quotient formulas exactly; for a row
with zero views each ratio is the float `x/0`: the undefined `nan` marker
when its numerator is also zero, and a signed infinity — not `nan` —
when the numerator is nonzero. -/
theorem derived_ratio_formulas (videos : List VideoRow) (creators : List CreatorRow)
    (r : MergedRow) (hr : r ∈ prepare_data videos creators) :
    (0 < r.views →
      r.engagement_rate = PFloat.val ((r.likes + r.comments + r.shares) / r.views * 100) ∧
      r.avg_watch_time_per_view = PFloat.val (r.watch_time / r.views) ∧
      r.like_to_view_ratio = PFloat.val (r.likes / r.views) ∧
      r.share_to_view_ratio = PFloat.val (r.shares / r.views)) ∧
    (r.views = 0 →
      (r.engagement_rate =
        if r.likes + r.comments + r.shares = 0 then PFloat.nan
        else if 0 < r.likes + r.comments + r.shares then PFloat.inf else PFloat.neginf) ∧
      (r.avg_watch_time_per_view =
        if r.watch_time = 0 then PFloat.nan
        else if 0 < r.watch_time then PFloat.inf else PFloat.neginf) ∧
      (r.like_to_view_ratio =
        if r.likes = 0 then PFloat.nan
        else if 0 < r.likes then PFloat.inf else PFloat.neginf) ∧
      (r.share_to_view_ratio =
        if r.shares = 0 then PFloat.nan
        else if 0 < r.shares then PFloat.inf else PFloat.neginf)) := by
  obtain ⟨v, hv, c, rfl⟩ := mem_prepare_data hr
  constructor
  · intro hpos
    simp only [mkMergedRow] at hpos ⊢
    have hne : v.views ≠ 0 := ne_of_gt hpos
    refine ⟨?_, by simp [pdivQ, hne], by simp [pdivQ, hne], by simp [pdivQ, hne]⟩
    simp [pdivQ, hne, PFloat.scalePos, mul_comm]
  · intro hzero
    simp only [mkMergedRow] at hzero ⊢
    refine ⟨?_, ?_, ?_, ?_⟩ <;>
      simp only [pdivQ, hzero, if_true, eq_self_iff_true] <;>
        split_ifs <;> simp_all [PFloat.scalePos]

/-- Witness for the claim theorem of C1: the single merged row of a
100-view video satisfies the engagement-rate formula. -/
theorem derived_ratio_formulas_witness :
    (mkMergedRow exTen none).engagement_rate = PFloat.val ((10 + 0 + 0) / 100 * 100) :=
  ((derived_ratio_formulas [exTen] [] (mkMergedRow exTen none)
      (by norm_num [prepare_data, exTen, mkVideo])).1
    (by norm_num [mkMergedRow, exTen, mkVideo])).1

/-- C1 counterexample: the merged row of a video with zero views and
five likes has engagement rate `+inf`, a value distinct from the
undefined `nan` marker the claim requires. -/
theorem engagement_rate_infinite_on_zero_views :
    (mkAnalyzer [exZeroViews] []).merged.map (fun r => r.engagement_rate) = [PFloat.inf] ∧
    PFloat.inf ≠ PFloat.nan := by
  refine ⟨?_, by simp⟩
  norm_num [mkAnalyzer, prepare_data, mkMergedRow, exZeroViews, mkVideo, pdivQ, PFloat.scalePos]

/-- C2 (amended): for the string-valued grouping keys — `format_type`,
`niche`, and the composite `(creator_name, niche)` — the aggregate has
exactly one summary row per distinct non-null key value observed in the
merged table (rows with a null key are dropped).  For the duration
bucket, a categorical key, the aggregate has one summary row per
category label — always all five labels, observed or not. -/
theorem grouped_rows_per_observed_key (a : ShortformAnalyzer) :
    (format_performance_analysis a).length =
      ((a.merged.map (fun r => r.format_type)).dedup).length ∧
    (niche_analysis a).length = ((a.merged.filterMap (fun r => r.niche)).dedup).length ∧
    (creatorGroupStats a).length = ((a.merged.filterMap keyCreatorNiche).dedup).length ∧
    ((duration_analysis a).2).length = durationLabels.length := by
  refine ⟨?_, ?_, ?_, ?_⟩
  · rw [format_performance_analysis, List.length_map, groupbyKey_length]
    congr 2
    exact congrFun (List.filterMap_eq_map (fun r : MergedRow => r.format_type)) a.merged
  · rw [niche_analysis, List.length_map, groupbyKey_length]
  · rw [creatorGroupStats, List.length_map, groupbyKey_length]
  · simp [duration_analysis, durationGroups]

/-- C2 counterexample: one merged row, with a 10-second duration, yields
a duration aggregate with five summary rows although only one bucket
value is observed — the four empty buckets are synthesized. -/
theorem duration_groups_include_unobserved :
    ((duration_analysis (mkAnalyzer [exTen] [])).2).length = 5 ∧
    (((mkAnalyzer [exTen] []).merged.map (fun r => durationBin r.duration_sec)).dedup).length = 1 ∧
    (5 : ℕ) ≠ 1 := by
  refine ⟨?_, ?_, by simp⟩
  · simp [duration_analysis, durationGroups, durationLabels]
  · norm_num [mkAnalyzer, prepare_data, mkMergedRow, exTen, mkVideo, durationBin]

/-- C3 (amended, the code drops such rows): the duration-grouped output
contains exactly the five fixed bucket labels — no "unbucketed" bucket —
and every row appearing in any group has an in-range duration, so a row
whose duration lies outside (0, 100] appears in no group of the output:
it silently vanishes from the duration aggregate. -/
theorem unbucketed_rows_dropped (rows : List MergedRow) :
    ((durationGroups rows).map Prod.fst = durationLabels) ∧
    ((durationGroups rows).all
      (fun p => p.2.all (fun x => (durationBin x.duration_sec).isSome)) = true) := by
  constructor
  · simp [durationGroups, Function.comp_def]
  · rw [List.all_eq_true]
    intro p hp
    rw [durationGroups, List.mem_map] at hp
    obtain ⟨l, hl, rfl⟩ := hp
    rw [List.all_eq_true]
    intro x hx
    rw [List.mem_filter] at hx
    obtain ⟨hx1, hx2⟩ := hx
    rw [setDurationBins, List.mem_map] at hx1
    obtain ⟨r0, hr0, rfl⟩ := hx1
    simp_all

/-- C3 counterexample: a table with a single 150-second row produces a
duration aggregate whose groups are the five standard buckets, all
empty — the out-of-range row appears under no bucket at all. -/
theorem out_of_range_row_vanishes :
    (mkAnalyzer [exOutOfRange] []).merged.length = 1 ∧
    ((durationGroups (mkAnalyzer [exOutOfRange] []).merged).map Prod.fst = durationLabels) ∧
    ((durationGroups (mkAnalyzer [exOutOfRange] []).merged).all
      (fun p => p.2.isEmpty) = true) := by
  refine ⟨?_, ?_, ?_⟩ <;>
    norm_num [mkAnalyzer, prepare_data, mkMergedRow, exOutOfRange, mkVideo, durationGroups,
      setDurationBins, durationLabels, durationBin, Function.comp] <;>
      simp

/-- C10: every row of the `creator_performance_ranking` result carries an
integer (`RangeIndex`) index entry — the follower merge discards the
`(creator_name, niche)` grouping index — so in particular the first index
entry of a non-empty result is an integer position, not the top
creator's name. -/
theorem creator_ranking_integer_index (a : ShortformAnalyzer) (top_n : ℕ) :
    ((creator_performance_ranking a top_n).map (fun e => e.idx)).all PIdx.isPos = true := by
  rw [List.all_eq_true]
  intro x hx
  rw [List.mem_map] at hx
  obtain ⟨e, he, rfl⟩ := hx
  simp only [creator_performance_ranking] at he
  have h1 := (List.take_sublist _ _).subset he
  have h2 := (List.perm_insertionSort _ _).subset h1
  rw [List.mem_map] at h2
  obtain ⟨q, hq, rfl⟩ := h2
  rfl

theorem strip_setDurationBins (rows : List MergedRow) :
    (setDurationBins rows).map stripAddedCols = rows.map stripAddedCols := by
  rw [setDurationBins, List.map_map]
  rfl

theorem strip_cluster_assign (rows : List MergedRow) (labels : List ℕ)
    (h : labels.length = rows.length) :
    ((rows.zip labels).map (fun p => { p.1 with cluster := some p.2 })).map stripAddedCols
      = rows.map stripAddedCols := by
  induction rows generalizing labels with
  | nil => simp
  | cons r rs ih =>
    cases labels with
    | nil => simp at h
    | cons l ls =>
      simp only [List.zip_cons_cons, List.map_cons]
      rw [ih ls (by simpa using h)]
      rfl

theorem cluster_assign_length (rows : List MergedRow) (labels : List ℕ)
    (h : labels.length = rows.length) :
    ((rows.zip labels).map (fun p => { p.1 with cluster := some p.2 })).length = rows.length := by
  simp [List.length_zip, h]

theorem standard_scaler_ok_length {m : List (List PFloat)} {q : List (List ℚ)}
    (h : standard_scaler m = .ok q) : q.length = m.length := by
  rw [standard_scaler] at h
  split_ifs at h <;> cases h <;> simp

theorem kmeans_ok_length {k : ℤ} {x : List (List ℚ)} {labels : List ℕ}
    (h : kmeans_fit_predict k x = .ok labels) : labels.length = x.length := by
  rw [kmeans_fit_predict] at h
  split_ifs at h <;> cases h <;> simp

theorem insights_state (a : ShortformAnalyzer) :
    (generate_insights_report a).1 = a ∨
    (generate_insights_report a).1 = (duration_analysis a).1 := by
  unfold generate_insights_report
  dsimp only
  split
  · exact Or.inl rfl
  · split
    · exact Or.inl rfl
    · split
      · exact Or.inr rfl
      · exact Or.inr rfl

/-- C6 (amended): the read-only analyses (grouped aggregation by format
and niche, correlation, creator ranking, top-performer ranking) leave the
shared merged table untouched, but `duration_analysis` and
`performance_clustering` — and `generate_insights_report`, which calls
`duration_analysis` — write a column (`duration_bin`, `cluster`) into it
in place.  The mutation is limited to those added columns: the row count
and every column built by the join/derive step are unchanged. -/
theorem merged_table_ownership (a : ShortformAnalyzer) (m : Metric) (k : ℤ) (n top_n : ℕ) :
    (format_performance_analysis_run a).1 = a ∧
    (niche_analysis_run a).1 = a ∧
    (correlation_analysis_run a).1 = a ∧
    (creator_performance_ranking_run a top_n).1 = a ∧
    (top_performers_analysis_run a m n).1 = a ∧
    ((duration_analysis a).1.merged.map stripAddedCols = a.merged.map stripAddedCols ∧
      (duration_analysis a).1.merged.length = a.merged.length) ∧
    ((performance_clustering a k).1.merged.map stripAddedCols = a.merged.map stripAddedCols ∧
      (performance_clustering a k).1.merged.length = a.merged.length) ∧
    (generate_insights_report a).1.merged.map stripAddedCols = a.merged.map stripAddedCols := by
  refine ⟨rfl, rfl, rfl, rfl, rfl, ⟨strip_setDurationBins a.merged, by simp [duration_analysis, setDurationBins]⟩, ?_, ?_⟩
  · rcases hs : standard_scaler (featureRows a.merged) with e | scaled
    · simp [performance_clustering, hs]
    · rcases hk : kmeans_fit_predict k scaled with e | labels
      · simp [performance_clustering, hs, hk]
      · have hlen : labels.length = a.merged.length := by
          rw [kmeans_ok_length hk, standard_scaler_ok_length hs, featureRows, List.length_map]
        simp only [performance_clustering, hs, hk]
        exact ⟨strip_cluster_assign a.merged labels hlen, cluster_assign_length a.merged labels hlen⟩
  · rcases insights_state a with h | h
    · rw [h]
    · rw [h]
      exact strip_setDurationBins a.merged

/-- C6 counterexample: on a one-row table `duration_analysis` changes the
analyzer state in place (it adds the `duration_bin` column), so the
merged table is not the same before and after the call. -/
theorem duration_analysis_mutates_merged :
    (duration_analysis (mkAnalyzer [exTen] [])).1 ≠ mkAnalyzer [exTen] [] := by
  intro h
  have h2 := congrArg (fun s => s.merged.map (fun r => r.duration_bin)) h
  norm_num [duration_analysis, setDurationBins, mkAnalyzer, prepare_data, mkMergedRow,
    exTen, mkVideo, durationBin] at h2
  exact Option.noConfusion h2

/-- C4 (amended): the insights generator does not have a fallback at
every extraction point.  The creator, duration, and correlation points
are guarded, but the format extraction point calls `idxmax` unguarded,
so on an empty merged table the call propagates a `ValueError` lookup
failure instead of substituting a fallback sentence (the niche point is
unguarded in the same way). -/
theorem insights_error_on_empty (a : ShortformAnalyzer) (h : a.merged = []) :
    (generate_insights_report a).2 =
      Except.error (PyError.valueError ("attempt to get argmax of an empty sequence")) := by
  have hf : format_performance_analysis a = [] := by
    simp [format_performance_analysis, groupbyKey, h]
  rw [generate_insights_report, hf]
  rfl

/-- Witness for the claim theorem of C4: the empty analyzer satisfies
its hypothesis and produces the error. -/
theorem insights_error_on_empty_witness :
    (generate_insights_report (mkAnalyzer [] [])).2 =
      Except.error (PyError.valueError ("attempt to get argmax of an empty sequence")) :=
  insights_error_on_empty (mkAnalyzer [] []) rfl

/-- C4 counterexample: on the empty input the insights report raises (the
result is an error, not a list of sentences) — contradicting the claim
that every input yields fallback sentences and never a propagated
failure. -/
theorem insights_raise_on_empty_input :
    ((generate_insights_report (mkAnalyzer [] [])).2.isOk = false) ∧
    (generate_insights_report (mkAnalyzer [] [])).2 =
      Except.error (PyError.valueError ("attempt to get argmax of an empty sequence")) := by
  exact ⟨rfl, rfl⟩

theorem corrSamples_swap (rows : List MergedRow) (i j : Metric) :
    corrSamples rows j i = (corrSamples rows i j).map Prod.swap := by
  induction rows with
  | nil => simp [corrSamples]
  | cons r rs ih =>
    by_cases h1 : (metricVal i r).isNaN <;> by_cases h2 : (metricVal j r).isNaN <;>
      simp_all [corrSamples, List.filterMap_cons, h1, h2]

theorem corrQ_swap (rows : List MergedRow) (i j : Metric) :
    corrQ rows j i = (corrQ rows i j).map Prod.swap := by
  rw [corrQ, corrQ, corrSamples_swap, List.map_map, List.map_map]
  rfl

theorem sDot_swap (ps : List (ℚ × ℚ)) : sDot (ps.map Prod.swap) = sDot ps := by
  unfold sDot
  simp only [List.map_map, List.length_map, Function.comp_def, Prod.fst_swap, Prod.snd_swap]
  exact congrArg List.sum (List.map_congr_left fun p hp => by ring)

theorem corrHasNonfinite_symm (rows : List MergedRow) (i j : Metric) :
    corrHasNonfinite rows j i = corrHasNonfinite rows i j := by
  rw [corrHasNonfinite, corrHasNonfinite, corrSamples_swap, List.any_map]
  induction corrSamples rows i j with
  | nil => rfl
  | cons p ps ih => simp [ih, Function.comp_def, Bool.or_comm]

theorem corrSxy_symm (rows : List MergedRow) (i j : Metric) :
    corrSxy rows j i = corrSxy rows i j := by
  rw [corrSxy, corrSxy, corrQ_swap, sDot_swap]

theorem corrSxx_swap (rows : List MergedRow) (i j : Metric) :
    corrSxx rows j i = corrSyy rows i j := by
  rw [corrSxx, corrSyy, corrQ_swap, List.map_map]
  rfl

theorem corrSyy_swap (rows : List MergedRow) (i j : Metric) :
    corrSyy rows j i = corrSxx rows i j := by
  rw [corrSyy, corrSxx, corrQ_swap, List.map_map]
  rfl

theorem sDot_dup_nonneg (l : List (ℚ × ℚ)) : 0 ≤ sDot (l.map (fun p => (p.1, p.1))) := by
  unfold sDot
  simp only [List.map_map, List.length_map, Function.comp_def]
  exact List.sum_nonneg (by
    intro x hx
    rw [List.mem_map] at hx
    obtain ⟨p, hp, rfl⟩ := hx
    exact mul_self_nonneg _)

theorem sDot_dup2_nonneg (l : List (ℚ × ℚ)) : 0 ≤ sDot (l.map (fun p => (p.2, p.2))) := by
  unfold sDot
  simp only [List.map_map, List.length_map, Function.comp_def]
  exact List.sum_nonneg (by
    intro x hx
    rw [List.mem_map] at hx
    obtain ⟨p, hp, rfl⟩ := hx
    exact mul_self_nonneg _)

theorem corrSxx_nonneg (rows : List MergedRow) (i j : Metric) : 0 ≤ corrSxx rows i j :=
  sDot_dup_nonneg _

theorem corrQ_diag (rows : List MergedRow) (i : Metric) :
    ∀ p ∈ corrQ rows i i, p.1 = p.2 := by
  intro p hp
  rw [corrQ, List.mem_map] at hp
  obtain ⟨q, hq, rfl⟩ := hp
  rw [corrSamples, List.mem_filterMap] at hq
  obtain ⟨r, hr, hq2⟩ := hq
  split_ifs at hq2
  · cases hq2
    rfl

/-- C8: the correlation matrix is symmetric; a diagonal entry whose
metric has all-finite pairwise samples of nonzero variance is exactly 1;
and whenever one of the two variance terms of an entry is zero the entry
is the undefined `nan` marker, which is distinct from the number 0. -/
theorem correlation_matrix_properties (a : ShortformAnalyzer) (i j : Metric) :
    (correlation_analysis a i j = correlation_analysis a j i) ∧
    (corrHasNonfinite a.merged i i = false → corrSxx a.merged i i ≠ 0 →
      correlation_analysis a i i = PFloat.val 1) ∧
    (corrSxx a.merged i j * corrSyy a.merged i j = 0 →
      correlation_analysis a i j = PFloat.nan ∧ PFloat.nan ≠ PFloat.val 0) := by
  refine ⟨?_, ?_, ?_⟩
  · show corrEntry a.merged i j = corrEntry a.merged j i
    rw [corrEntry, corrEntry, corrHasNonfinite_symm a.merged i j, corrSxy_symm a.merged i j,
      corrSxx_swap a.merged i j, corrSyy_swap a.merged i j]
    dsimp only
    rw [mul_comm (corrSyy a.merged i j) (corrSxx a.merged i j)]
  · intro hf hx
    show corrEntry a.merged i i = PFloat.val 1
    have e1 : ∀ p ∈ corrQ a.merged i i, (p.1, p.1) = p := fun p hp =>
      Prod.ext rfl (corrQ_diag a.merged i p hp)
    have hdup : (corrQ a.merged i i).map (fun p => (p.1, p.1)) = corrQ a.merged i i :=
      (List.map_congr_left e1).trans (List.map_id _)
    have hsxx : corrSxx a.merged i i = sDot (corrQ a.merged i i) := by rw [corrSxx, hdup]
    have hsxy : corrSxy a.merged i i = corrSxx a.merged i i := by rw [corrSxy, hsxx]
    have hsyy : corrSyy a.merged i i = corrSxx a.merged i i := by
      rw [corrSyy, corrSxx]
      congr 1
      exact List.map_congr_left (fun p hp => by rw [corrQ_diag a.merged i p hp])
    have hpos : 0 < corrSxx a.merged i i :=
      lt_of_le_of_ne (corrSxx_nonneg _ _ _) (Ne.symm hx)
    have hne2 : corrSxx a.merged i i * corrSxx a.merged i i ≠ 0 := mul_ne_zero hx hx
    rw [corrEntry, hf]
    simp only [Bool.false_eq_true, if_false]
    rw [hsxy, hsyy, if_neg hne2, abs_of_pos hpos, div_self hne2]
  · intro h
    refine ⟨?_, by simp⟩
    show corrEntry a.merged i j = PFloat.nan
    rw [corrEntry]
    by_cases hf : corrHasNonfinite a.merged i j
    · simp [hf]
    · simp [hf, h]

/-- Witness for the claim theorem of C8: on a concrete two-row table the
views/likes entry is symmetric, the views diagonal entry is 1, and on a
table whose likes column is constant the views/likes entry is `nan`. -/
theorem correlation_matrix_properties_witness :
    (correlation_analysis (mkAnalyzer [exA, exB] []) Metric.views Metric.likes =
      correlation_analysis (mkAnalyzer [exA, exB] []) Metric.likes Metric.views) ∧
    correlation_analysis (mkAnalyzer [exA, exB] []) Metric.views Metric.views = PFloat.val 1 ∧
    (correlation_analysis (mkAnalyzer [exC1, exC2] []) Metric.views Metric.likes = PFloat.nan ∧
      PFloat.nan ≠ PFloat.val 0) :=
  ⟨(correlation_matrix_properties (mkAnalyzer [exA, exB] []) Metric.views Metric.likes).1,
   (correlation_matrix_properties (mkAnalyzer [exA, exB] []) Metric.views Metric.likes).2.1
     (by norm_num [corrHasNonfinite, corrSamples, metricVal, mkAnalyzer, prepare_data,
       mkMergedRow, exA, exB, mkVideo, PFloat.isNaN, PFloat.isFinite,
       List.filterMap_cons, Function.comp_def])
     (by norm_num [corrSxx, corrQ, corrSamples, sDot, metricVal, PFloat.toQ, PFloat.isNaN,
       mkAnalyzer, prepare_data, mkMergedRow, exA, exB, mkVideo,
       List.filterMap_cons, Function.comp_def]),
   (correlation_matrix_properties (mkAnalyzer [exC1, exC2] []) Metric.views Metric.likes).2.2
     (by norm_num [corrSxx, corrSyy, corrQ, corrSamples, sDot, metricVal, PFloat.toQ,
       PFloat.isNaN, mkAnalyzer, prepare_data, mkMergedRow, exC1, exC2, mkVideo,
       List.filterMap_cons, Function.comp_def])⟩

theorem standard_scaler_ok_of_finite (m : List (List PFloat)) (hne : m.isEmpty = false)
    (hfin : m.any (fun row => row.any (fun x => ¬ x.isFinite)) = false) :
    ∃ q, standard_scaler m = .ok q ∧ q.length = m.length := by
  rw [standard_scaler]
  simp only [hne, hfin, Bool.false_eq_true, if_false]
  exact ⟨_, rfl, by simp⟩

/-- C5 (amended): with a nonempty feature table of finite cells, a
non-positive `k` fails with the `InvalidParameterError` naming
`n_clusters`, a `k` exceeding the number of input rows fails with the
`ValueError` whose message also names `n_clusters` — but a `k` that is at
most the row count succeeds and attaches a cluster id to every row, even
when `k` exceeds the number of distinct rows (scikit-learn then only
warns). -/
theorem clustering_parameter_validation (a : ShortformAnalyzer) (k : ℤ)
    (hne : (featureRows a.merged).isEmpty = false)
    (hfin : (featureRows a.merged).any (fun row => row.any (fun x => ¬ x.isFinite)) = false) :
    (k < 1 → performance_clustering a k =
      (a, .error (PyError.invalidParameter ("n_clusters")))) ∧
    (1 ≤ k → (a.merged.length : ℤ) < k → performance_clustering a k =
      (a, .error (PyError.valueError ("n_samples should be >= n_clusters")))) ∧
    (1 ≤ k → k ≤ (a.merged.length : ℤ) →
      ((performance_clustering a k).2.isOk = true ∧
        (performance_clustering a k).1.merged.all (fun r => r.cluster.isSome) = true)) := by
  obtain ⟨q, hq, hlen⟩ := standard_scaler_ok_of_finite _ hne hfin
  have hlm : q.length = a.merged.length := by rw [hlen, featureRows, List.length_map]
  refine ⟨?_, ?_, ?_⟩
  · intro hk
    simp only [performance_clustering, hq]
    rw [kmeans_fit_predict, if_pos hk]
  · intro hk1 hk2
    simp only [performance_clustering, hq]
    rw [kmeans_fit_predict, if_neg (by omega), if_pos (by rw [hlm] ; exact hk2)]
  · intro hk1 hk2
    have hlab : kmeans_fit_predict k q = .ok (q.enum.map (fun p => p.1 % k.toNat)) := by
      rw [kmeans_fit_predict, if_neg (by omega), if_neg (by rw [hlm] ; omega)]
    simp only [performance_clustering, hq, hlab]
    refine ⟨rfl, ?_⟩
    rw [List.all_eq_true]
    intro r hr
    rw [List.mem_map] at hr
    obtain ⟨p, hp, rfl⟩ := hr
    rfl

/-- Witness for the claim theorem of C5 on a one-row table: `k = 0`
fails naming `n_clusters`, `k = 3` fails the sample check, `k = 1`
succeeds and assigns a cluster to the row. -/
theorem clustering_parameter_validation_witness :
    (performance_clustering (mkAnalyzer [exA] []) 0 =
      (mkAnalyzer [exA] [], .error (PyError.invalidParameter ("n_clusters")))) ∧
    (performance_clustering (mkAnalyzer [exA] []) 3 =
      (mkAnalyzer [exA] [], .error (PyError.valueError ("n_samples should be >= n_clusters")))) ∧
    ((performance_clustering (mkAnalyzer [exA] []) 1).2.isOk = true ∧
      (performance_clustering (mkAnalyzer [exA] []) 1).1.merged.all
        (fun r => r.cluster.isSome) = true) :=
  ⟨(clustering_parameter_validation (mkAnalyzer [exA] []) 0
      (by norm_num [featureRows, featureVec, mkAnalyzer, prepare_data, mkMergedRow, exA,
        mkVideo, pdivQ, PFloat.scalePos])
      (by norm_num [featureRows, featureVec, mkAnalyzer, prepare_data, mkMergedRow, exA,
        mkVideo, pdivQ, PFloat.scalePos, PFloat.isFinite])).1 (by norm_num),
   (clustering_parameter_validation (mkAnalyzer [exA] []) 3
      (by norm_num [featureRows, featureVec, mkAnalyzer, prepare_data, mkMergedRow, exA,
        mkVideo, pdivQ, PFloat.scalePos])
      (by norm_num [featureRows, featureVec, mkAnalyzer, prepare_data, mkMergedRow, exA,
        mkVideo, pdivQ, PFloat.scalePos, PFloat.isFinite])).2.1 (by norm_num)
      (by norm_num [mkAnalyzer, prepare_data, exA, mkVideo]),
   (clustering_parameter_validation (mkAnalyzer [exA] []) 1
      (by norm_num [featureRows, featureVec, mkAnalyzer, prepare_data, mkMergedRow, exA,
        mkVideo, pdivQ, PFloat.scalePos])
      (by norm_num [featureRows, featureVec, mkAnalyzer, prepare_data, mkMergedRow, exA,
        mkVideo, pdivQ, PFloat.scalePos, PFloat.isFinite])).2.2 (by norm_num)
      (by norm_num [mkAnalyzer, prepare_data, exA, mkVideo])⟩

/-- C5 counterexample: a table of two identical rows has one distinct
row, yet clustering with `k = 2` does not fail — it succeeds and
produces a cluster assignment for every row. -/
theorem clustering_succeeds_beyond_distinct_rows :
    ((mkAnalyzer [exDup, exDup] []).merged.dedup.length = 1) ∧
    ((performance_clustering (mkAnalyzer [exDup, exDup] []) 2).2.isOk = true) ∧
    ((performance_clustering (mkAnalyzer [exDup, exDup] []) 2).1.merged.all
      (fun r => r.cluster.isSome) = true) := by
  have hq := standard_scaler_ok_of_finite (featureRows (mkAnalyzer [exDup, exDup] []).merged)
    (by norm_num [featureRows, featureVec, mkAnalyzer, prepare_data, mkMergedRow, exDup,
      mkVideo, pdivQ, PFloat.scalePos])
    (by norm_num [featureRows, featureVec, mkAnalyzer, prepare_data, mkMergedRow, exDup,
      mkVideo, pdivQ, PFloat.scalePos, PFloat.isFinite])
  obtain ⟨q, hq, hlen⟩ := hq
  have hq2 : q.length = 2 := by
    rw [hlen]
    norm_num [featureRows, mkAnalyzer, prepare_data, mkMergedRow, exDup, mkVideo]
  have hlab : kmeans_fit_predict 2 q = .ok (q.enum.map (fun p => p.1 % (2 : ℤ).toNat)) := by
    rw [kmeans_fit_predict, if_neg (by norm_num), if_neg (by rw [hq2] ; norm_num)]
  refine ⟨?_, ?_, ?_⟩
  · norm_num [mkAnalyzer, prepare_data, mkMergedRow, exDup, mkVideo]
  · simp only [performance_clustering, hq, hlab]
    rfl
  · simp only [performance_clustering, hq, hlab]
    rw [List.all_eq_true]
    intro r hr
    rw [List.mem_map] at hr
    obtain ⟨p, hp, rfl⟩ := hr
    rfl

instance nlargestRelTotal (m : Metric) : IsTotal MergedRow (nlargestRel m) :=
  ⟨fun x y => by
    rcases Bool.or_eq_true_iff.mp (pleB_total (metricVal m y) (metricVal m x)) with h | h
    · exact Or.inl h
    · exact Or.inr h⟩

instance nlargestRelTrans (m : Metric) : IsTrans MergedRow (nlargestRel m) :=
  ⟨fun x y z hxy hyz => pleB_trans _ _ _ hyz hxy⟩

theorem nlargest_sorted (a : ShortformAnalyzer) (m : Metric) :
    List.Pairwise (nlargestRel m)
      ((definedRows a.merged m).insertionSort (nlargestRel m)) :=
  List.sorted_insertionSort (nlargestRel m) (definedRows a.merged m)

/-- C7 (amended): `top_performers_analysis` is the projection of the
`nlargest` row selection, which is sorted descending by the requested
metric; a row left out has a metric value at most that of every selected
row; ties are broken by original row order (the selected portion of each
tie class is a prefix of that class in original order); and when `N` is
at least the row count the selection returns all rows whose metric cell
is defined — rows with an undefined (`nan`) metric cell are always
excluded, even then. -/
theorem top_performers_selection (a : ShortformAnalyzer) (m : Metric) (n : ℕ) :
    (top_performers_analysis a m n = (top_performers_rows a m n).map projTop) ∧
    List.Pairwise (nlargestRel m) (top_performers_rows a m n) ∧
    (∀ r ∈ definedRows a.merged m, r ∉ top_performers_rows a m n →
      ∀ s ∈ top_performers_rows a m n,
        PFloat.leB (metricVal m r) (metricVal m s) = true) ∧
    (∀ v : PFloat,
      (top_performers_rows a m n).filter (fun x => decide (metricVal m x = v)) <+:
        (definedRows a.merged m).filter (fun x => decide (metricVal m x = v))) ∧
    (a.merged.length ≤ n → (top_performers_rows a m n).Perm (definedRows a.merged m)) := by
  have hsort := nlargest_sorted a m
  have hperm := List.perm_insertionSort (nlargestRel m) (definedRows a.merged m)
  refine ⟨rfl, ?_, ?_, ?_, ?_⟩
  · exact List.Pairwise.sublist (List.take_sublist _ _) hsort
  · intro r hr hrn s hs
    have hrs : r ∈ (definedRows a.merged m).insertionSort (nlargestRel m) :=
      hperm.mem_iff.mpr hr
    rw [← List.take_append_drop n ((definedRows a.merged m).insertionSort (nlargestRel m))]
      at hrs
    rcases List.mem_append.mp hrs with h | h
    · exact absurd h hrn
    · have h2 := hsort
      rw [← List.take_append_drop n ((definedRows a.merged m).insertionSort (nlargestRel m))]
        at h2
      exact (List.pairwise_append.mp h2).2.2 s hs r h
  · intro v
    have hcp : List.Pairwise (nlargestRel m)
        ((definedRows a.merged m).filter (fun x => decide (metricVal m x = v))) := by
      apply List.pairwise_of_forall_mem_list
      intro x hx y hy
      rw [List.mem_filter] at hx hy
      have hx2 := of_decide_eq_true hx.2
      have hy2 := of_decide_eq_true hy.2
      show PFloat.leB (metricVal m y) (metricVal m x) = true
      rw [hx2, hy2]
      exact pleB_refl v
    have hsub : ((definedRows a.merged m).filter
        (fun x => decide (metricVal m x = v))).Sublist
        ((definedRows a.merged m).insertionSort (nlargestRel m)) :=
      List.sublist_insertionSort hcp (List.filter_sublist _)
    have hsub2 := hsub.filter (fun x => decide (metricVal m x = v))
    rw [List.filter_filter] at hsub2
    have hfeq : ((definedRows a.merged m).filter
        (fun x => decide (metricVal m x = v) && decide (metricVal m x = v))) =
        ((definedRows a.merged m).filter (fun x => decide (metricVal m x = v))) := by
      apply List.filter_congr
      intro x hx
      cases h : decide (metricVal m x = v) <;> simp [h]
    rw [hfeq] at hsub2
    have hpf := hperm.filter (fun x => decide (metricVal m x = v))
    have heq : ((definedRows a.merged m).insertionSort (nlargestRel m)).filter
        (fun x => decide (metricVal m x = v)) =
        (definedRows a.merged m).filter (fun x => decide (metricVal m x = v)) :=
      (hsub2.eq_of_length hpf.length_eq.symm).symm
    have hpre := (List.take_prefix n
      ((definedRows a.merged m).insertionSort (nlargestRel m))).filter
        (fun x => decide (metricVal m x = v))
    rw [heq] at hpre
    exact hpre
  · intro hn
    have hlen : (definedRows a.merged m).length ≤ n :=
      le_trans (List.length_filter_le _ _) hn
    have : ((definedRows a.merged m).insertionSort (nlargestRel m)).length ≤ n := by
      rw [length_insertionSort]
      exact hlen
    rw [top_performers_rows, List.take_of_length_le this]
    exact hperm

/-- Witness for the claim theorem of C7, on a two-row table with views
100 and 200: requesting the top 1 by views selects the 200-view row and
the excluded 100-view row compares below it (selection clause at
`n = 1`), and requesting the top 5 — more than the row count — returns
all defined rows (completeness clause at `n = 5`). -/
theorem top_performers_selection_witness :
    (PFloat.leB (metricVal Metric.views (mkMergedRow exA none))
      (metricVal Metric.views (mkMergedRow exB none)) = true) ∧
    (top_performers_rows (mkAnalyzer [exA, exB] []) Metric.views 5).Perm
      (definedRows (mkAnalyzer [exA, exB] []).merged Metric.views) :=
  ⟨(top_performers_selection (mkAnalyzer [exA, exB] []) Metric.views 1).2.2.1
      (mkMergedRow exA none)
      (by norm_num [definedRows, metricVal, PFloat.isNaN, mkAnalyzer, prepare_data,
        mkMergedRow, exA, exB, mkVideo])
      (by norm_num [top_performers_rows, definedRows, List.insertionSort, List.orderedInsert,
        nlargestRel, metricVal, PFloat.leB, PFloat.isNaN, mkAnalyzer, prepare_data,
        mkMergedRow, exA, exB, mkVideo])
      (mkMergedRow exB none)
      (by norm_num [top_performers_rows, definedRows, List.insertionSort, List.orderedInsert,
        nlargestRel, metricVal, PFloat.leB, PFloat.isNaN, mkAnalyzer, prepare_data,
        mkMergedRow, exA, exB, mkVideo]),
   (top_performers_selection (mkAnalyzer [exA, exB] []) Metric.views 5).2.2.2.2
      (by norm_num [mkAnalyzer, prepare_data, exA, exB, mkVideo])⟩

/-- C7 counterexample: a one-row table whose retention cell is undefined
(`0/0`) yields an empty top-1 selection by retention rate even though
`N = 1` equals the row count — the `nan` row is dropped, so not all rows
are returned. -/
theorem nlargest_drops_nan_rows :
    (mkAnalyzer [exZeroViews] []).merged.length = 1 ∧
    top_performers_analysis (mkAnalyzer [exZeroViews] []) Metric.retention_rate 1 = [] := by
  constructor <;>
    norm_num [mkAnalyzer, prepare_data, mkMergedRow, exZeroViews, mkVideo,
      top_performers_analysis, top_performers_rows, definedRows, metricVal, pdivQ,
      PFloat.isNaN, List.insertionSort]
